import Mathlib

/-!
Verification of the stock research repository's computational core.

Two source functions carry all of the logic under scrutiny:
* `calculate_risk_score` (main.py, lines 170-234): a pure scorer mapping
  (alpha, beta, r_squared) to a bounded risk score, a risk level string and
  per-factor contribution labels.
* `analyze_stock` (analyse_stock.py): turns a fetched daily price history
  into derived statistics (moving averages, trend, YTD change, volatility,
  drawdown, Sharpe ratio) plus chart artifacts.

Modelling conventions:
* Python floats are modelled as rationals (`ℚ`).  Square roots are not
  rational, so every definition that needs `np.sqrt` takes an explicit
  `sq : ℚ → ℚ` parameter standing for the square-root function; theorems
  that depend on properties of the square root state them as hypotheses
  (`sq 0 = 0`, `0 < sq 252`).
* A pandas NaN entry is `none` in an `Option ℚ`.  The one place where the
  float code can produce an infinity (the Sharpe division by a zero
  standard deviation) is modelled by the value type `FloatVal`, whose
  `fdiv` captures IEEE division of exact operands: a nonzero value divided
  by zero is a signed infinity, zero by zero is NaN.
* Filesystem activity (`os.makedirs`, `plt.savefig`) is modelled as an
  explicit list of effects returned next to the result.
-/

/-! ## Risk scorer (main.py, `calculate_risk_score`) -/

/-- Result record of `calculate_risk_score` (the `interpretation` sub-dict of
the source is pure string formatting of its inputs and is not modelled). -/
structure RiskAssessment where
  overall_risk_score : ℕ
  risk_level : String
  alpha_contribution : String
  beta_contribution : String
  r_squared_contribution : String
deriving DecidableEq

/-- Alpha block of `calculate_risk_score` (main.py lines 186-193). -/
def alphaContribution (alpha : ℚ) : ℕ :=
  if alpha < -(1/20) then 20
  else if alpha < 0 then 10
  else if alpha > 1/20 then 5
  else 8

/-- Beta block of `calculate_risk_score` (main.py lines 196-203). -/
def betaContribution (beta : ℚ) : ℕ :=
  if beta > 3/2 then 40
  else if beta > 6/5 then 30
  else if beta > 4/5 then 20
  else 15

/-- R-squared block of `calculate_risk_score` (main.py lines 206-213). -/
def rSquaredContribution (r_squared : ℚ) : ℕ :=
  if r_squared < 30 then 40
  else if r_squared < 50 then 30
  else if r_squared < 70 then 20
  else 15

/-- Embedding of `calculate_risk_score` (main.py lines 170-234).  The score
accumulates the three tier contributions; the level thresholds are 70 and 50
with `>=` comparisons, exactly as in the source. -/
def calculate_risk_score (alpha beta r_squared : ℚ) : RiskAssessment :=
  let risk_score := alphaContribution alpha + betaContribution beta
      + rSquaredContribution r_squared
  { overall_risk_score := risk_score
    risk_level :=
      if 70 ≤ risk_score then "HIGH"
      else if 50 ≤ risk_score then "MEDIUM"
      else "LOW"
    alpha_contribution :=
      if alpha < -(1/20) then "High risk"
      else if alpha < 0 then "Moderate risk" else "Low risk"
    beta_contribution :=
      if beta > 3/2 then "High risk"
      else if beta > 6/5 then "Moderate risk" else "Low risk"
    r_squared_contribution :=
      if r_squared < 30 then "High risk"
      else if r_squared < 50 then "Moderate risk" else "Low risk" }

/-- Alpha tier exactly as the claim words it: 20 on `alpha < -0.05`, 10 on
`-0.05 <= alpha < 0`, 5 on `alpha > 0.05`, else 8. -/
def alphaTierSpec (alpha : ℚ) : ℕ :=
  if alpha < -(1/20) then 20
  else if -(1/20) ≤ alpha ∧ alpha < 0 then 10
  else if alpha > 1/20 then 5
  else 8

/-- Beta tier exactly as the claim words it: 40 on `beta > 1.5`, 30 on
`1.2 < beta <= 1.5`, 20 on `0.8 < beta <= 1.2`, else 15. -/
def betaTierSpec (beta : ℚ) : ℕ :=
  if beta > 3/2 then 40
  else if 6/5 < beta ∧ beta ≤ 3/2 then 30
  else if 4/5 < beta ∧ beta ≤ 6/5 then 20
  else 15

/-- R-squared tier exactly as the claim words it: 40 on `r_squared < 30`, 30
on `30 <= r_squared < 50`, 20 on `50 <= r_squared < 70`, else 15. -/
def rSquaredTierSpec (r_squared : ℚ) : ℕ :=
  if r_squared < 30 then 40
  else if 30 ≤ r_squared ∧ r_squared < 50 then 30
  else if 50 ≤ r_squared ∧ r_squared < 70 then 20
  else 15

lemma alphaContribution_eq_spec (a : ℚ) : alphaContribution a = alphaTierSpec a := by
  unfold alphaContribution alphaTierSpec
  by_cases h1 : a < -(1/20)
  · rw [if_pos h1, if_pos h1]
  · rw [if_neg h1, if_neg h1]
    by_cases h2 : a < 0
    · have hs : -(1/20) ≤ a ∧ a < 0 := ⟨le_of_not_lt h1, h2⟩
      rw [if_pos h2, if_pos hs]
    · have hs : ¬(-(1/20) ≤ a ∧ a < 0) := fun hc => h2 hc.2
      rw [if_neg h2, if_neg hs]

lemma betaContribution_eq_spec (b : ℚ) : betaContribution b = betaTierSpec b := by
  unfold betaContribution betaTierSpec
  by_cases h1 : b > 3/2
  · rw [if_pos h1, if_pos h1]
  · rw [if_neg h1, if_neg h1]
    by_cases h2 : b > 6/5
    · have hs : 6/5 < b ∧ b ≤ 3/2 := ⟨h2, le_of_not_lt h1⟩
      rw [if_pos h2, if_pos hs]
    · have hs : ¬(6/5 < b ∧ b ≤ 3/2) := fun hc => h2 hc.1
      rw [if_neg h2, if_neg hs]
      by_cases h3 : b > 4/5
      · have hs2 : 4/5 < b ∧ b ≤ 6/5 := ⟨h3, le_of_not_lt h2⟩
        rw [if_pos h3, if_pos hs2]
      · have hs2 : ¬(4/5 < b ∧ b ≤ 6/5) := fun hc => h3 hc.1
        rw [if_neg h3, if_neg hs2]

lemma rSquaredContribution_eq_spec (r : ℚ) :
    rSquaredContribution r = rSquaredTierSpec r := by
  unfold rSquaredContribution rSquaredTierSpec
  by_cases h1 : r < 30
  · rw [if_pos h1, if_pos h1]
  · rw [if_neg h1, if_neg h1]
    by_cases h2 : r < 50
    · have hs : 30 ≤ r ∧ r < 50 := ⟨le_of_not_lt h1, h2⟩
      rw [if_pos h2, if_pos hs]
    · have hs : ¬(30 ≤ r ∧ r < 50) := fun hc => h2 hc.2
      rw [if_neg h2, if_neg hs]
      by_cases h3 : r < 70
      · have hs2 : 50 ≤ r ∧ r < 70 := ⟨le_of_not_lt h2, h3⟩
        rw [if_pos h3, if_pos hs2]
      · have hs2 : ¬(50 ≤ r ∧ r < 70) := fun hc => h3 hc.2
        rw [if_neg h3, if_neg hs2]

lemma overall_risk_score_eq (a b r : ℚ) :
    (calculate_risk_score a b r).overall_risk_score
      = alphaContribution a + betaContribution b + rSquaredContribution r := rfl

lemma risk_level_eq (a b r : ℚ) :
    (calculate_risk_score a b r).risk_level
      = (if 70 ≤ (calculate_risk_score a b r).overall_risk_score then "HIGH"
         else if 50 ≤ (calculate_risk_score a b r).overall_risk_score then "MEDIUM"
         else "LOW") := rfl

/-- C1: for every rational input, the overall score returned by
`calculate_risk_score` is the sum of the three tier contributions exactly as
the claim lists them (alpha: 20 / 10 / 5 / 8; beta: 40 / 30 / 20 / 15;
r_squared: 40 / 30 / 20 / 15, all thresholds strict as listed), and the risk
level is HIGH iff the score is at least 70, MEDIUM iff it is in [50, 70), and
LOW otherwise. -/
theorem c1_risk_score_tiers_and_level (a b r : ℚ) :
    (calculate_risk_score a b r).overall_risk_score
        = alphaTierSpec a + betaTierSpec b + rSquaredTierSpec r
    ∧ ((calculate_risk_score a b r).risk_level = "HIGH"
        ↔ 70 ≤ (calculate_risk_score a b r).overall_risk_score)
    ∧ ((calculate_risk_score a b r).risk_level = "MEDIUM"
        ↔ 50 ≤ (calculate_risk_score a b r).overall_risk_score
          ∧ (calculate_risk_score a b r).overall_risk_score < 70)
    ∧ ((calculate_risk_score a b r).risk_level = "LOW"
        ↔ (calculate_risk_score a b r).overall_risk_score < 50) := by
  refine ⟨?_, ?_⟩
  · rw [overall_risk_score_eq, alphaContribution_eq_spec, betaContribution_eq_spec,
      rSquaredContribution_eq_spec]
  · rw [risk_level_eq]
    split_ifs with h1 h2
    · exact ⟨iff_of_true rfl h1,
        iff_of_false (by decide) (by omega),
        iff_of_false (by decide) (by omega)⟩
    · exact ⟨iff_of_false (by decide) h1,
        iff_of_true rfl ⟨h2, by omega⟩,
        iff_of_false (by decide) (by omega)⟩
    · exact ⟨iff_of_false (by decide) h1,
        iff_of_false (by decide) (by omega),
        iff_of_true rfl (by omega)⟩

lemma betaContribution_mono {b b' : ℚ} (h : b ≤ b') :
    betaContribution b ≤ betaContribution b' := by
  unfold betaContribution
  split_ifs <;> first | decide | (exfalso; push_neg at *; linarith)

lemma rSquaredContribution_anti {r r' : ℚ} (h : r ≤ r') :
    rSquaredContribution r' ≤ rSquaredContribution r := by
  unfold rSquaredContribution
  split_ifs <;> first | decide | (exfalso; push_neg at *; linarith)

lemma alphaContribution_bounds (a : ℚ) :
    5 ≤ alphaContribution a ∧ alphaContribution a ≤ 20 := by
  unfold alphaContribution; split_ifs <;> norm_num

lemma betaContribution_bounds (b : ℚ) :
    15 ≤ betaContribution b ∧ betaContribution b ≤ 40 := by
  unfold betaContribution; split_ifs <;> norm_num

lemma rSquaredContribution_bounds (r : ℚ) :
    15 ≤ rSquaredContribution r ∧ rSquaredContribution r ≤ 40 := by
  unfold rSquaredContribution; split_ifs <;> norm_num

/-- C7: at fixed alpha and r_squared the overall risk score is monotone
non-decreasing in beta; at fixed alpha and beta it is monotone non-increasing
in r_squared; and the score always lies in [0, 100]. -/
theorem c7_score_monotonicity (a b b' r r' : ℚ) (hb : b ≤ b') (hr : r ≤ r') :
    (calculate_risk_score a b r).overall_risk_score
        ≤ (calculate_risk_score a b' r).overall_risk_score
    ∧ (calculate_risk_score a b r').overall_risk_score
        ≤ (calculate_risk_score a b r).overall_risk_score
    ∧ 0 ≤ (calculate_risk_score a b r).overall_risk_score
    ∧ (calculate_risk_score a b r).overall_risk_score ≤ 100 := by
  rw [overall_risk_score_eq, overall_risk_score_eq, overall_risk_score_eq]
  have h1 := betaContribution_mono hb
  have h2 := rSquaredContribution_anti hr
  have h3 := alphaContribution_bounds a
  have h4 := betaContribution_bounds b
  have h5 := rSquaredContribution_bounds r
  exact ⟨by omega, by omega, by omega, by omega⟩

/-- Witness for C7 at alpha = 0, beta = 1 ≤ 2, r_squared = 60 ≤ 65. -/
theorem c7_score_monotonicity_witness :
    ((1 : ℚ) ≤ 2 ∧ (60 : ℚ) ≤ 65)
    ∧ ((calculate_risk_score 0 1 60).overall_risk_score
        ≤ (calculate_risk_score 0 2 60).overall_risk_score
      ∧ (calculate_risk_score 0 1 65).overall_risk_score
        ≤ (calculate_risk_score 0 1 60).overall_risk_score
      ∧ 0 ≤ (calculate_risk_score 0 1 60).overall_risk_score
      ∧ (calculate_risk_score 0 1 60).overall_risk_score ≤ 100) :=
  ⟨⟨by norm_num, by norm_num⟩,
    c7_score_monotonicity 0 1 2 60 65 (by norm_num) (by norm_num)⟩

/-- C9: the overall risk score is always at least 35 (minimum contributions
5 + 15 + 15) and at most 100, so no input can produce a score below 35. -/
theorem c9_score_at_least_35 (a b r : ℚ) :
    35 ≤ (calculate_risk_score a b r).overall_risk_score
    ∧ (calculate_risk_score a b r).overall_risk_score ≤ 100 := by
  rw [overall_risk_score_eq]
  have h3 := alphaContribution_bounds a
  have h4 := betaContribution_bounds b
  have h5 := rSquaredContribution_bounds r
  omega

/-! ## Metrics calculator (analyse_stock.py, `analyze_stock`)

The price history fetched by the collaborator (`yf.Ticker(...).history`) is a
list of daily bars; the `stock.info` reference fields consumed via
`info.get(..., fallback)` are an explicit record of optionals.  Daily dates
are modelled as integers (days on an abstract calendar); the only use the
source makes of dates is the order-based slice `hist.loc[ytd_start:]`, which
on an ascending index keeps the bars with date at least `ytd_start`. -/

/-- One row of the fetched history DataFrame (the source reads only the
Close, High and Low columns; the rest travel along untouched). -/
structure PriceBar where
  date : ℤ
  open_price : ℚ
  high : ℚ
  low : ℚ
  close : ℚ
  volume : ℚ
deriving DecidableEq

/-- The `stock.info` reference fields read by `analyze_stock` via
`info.get("currentPrice", ...)` etc.; `none` models an absent key. -/
structure StockInfo where
  currentPrice? : Option ℚ
  fiftyTwoWeekHigh? : Option ℚ
  fiftyTwoWeekLow? : Option ℚ
deriving DecidableEq

/-- IEEE-style value for the one computation in the source whose float
result can be non-finite: division by a zero standard deviation. -/
inductive FloatVal where
  | nan
  | pinf
  | ninf
  | fin (q : ℚ)
deriving DecidableEq

/-- IEEE division of two exactly-represented finite operands: a nonzero
numerator over zero gives a signed infinity, zero over zero gives NaN. -/
def fdiv (x y : ℚ) : FloatVal :=
  if y = 0 then (if 0 < x then .pinf else if x < 0 then .ninf else .nan)
  else .fin (x / y)

/-- Arithmetic mean (pandas `.mean()`); only ever consulted on non-empty
data in the guarded paths below. -/
def mean (xs : List ℚ) : ℚ := xs.sum / xs.length

/-- Sample variance with the pandas default `ddof=1`; `none` is the NaN that
pandas `.std()` yields on fewer than two observations. -/
def sampleVar (xs : List ℚ) : Option ℚ :=
  if xs.length < 2 then none
  else some ((xs.map (fun x => (x - mean xs)^2)).sum / ((xs.length : ℚ) - 1))

/-- pandas `.std()` (sample standard deviation): the square root of
`sampleVar`, with `sq` standing for the real square-root function. -/
def sampleStd (sq : ℚ → ℚ) (xs : List ℚ) : Option ℚ := (sampleVar xs).map sq

/-- pandas `.min()` over a numeric column: NaN (`none`) on an empty series,
otherwise the least element. -/
def listMin : List ℚ → Option ℚ
  | [] => none
  | x :: xs => some (xs.foldl min x)

/-- pandas `.max()` over a numeric column. -/
def listMax : List ℚ → Option ℚ
  | [] => none
  | x :: xs => some (xs.foldl max x)

/-- `hist["Close"].pct_change().dropna()` (line 52): one return per
consecutive pair of closes, `close[i]/close[i-1] - 1`.  The embedding
assumes nonzero predecessors (a zero previous close would give a non-finite
float in the source); every theorem below that touches returns restricts to
positive closes or is insensitive to the value. -/
def dailyReturns (closes : List ℚ) : List ℚ :=
  List.zipWith (fun p c => c / p - 1) closes closes.tail

/-- `.cumprod()` of a series: running product, one entry per input entry. -/
def cumprod : List ℚ → List ℚ
  | [] => []
  | x :: xs => List.scanl (fun a b => a * b) x xs

/-- `.expanding().max()` of a series: running maximum. -/
def runningMax : List ℚ → List ℚ
  | [] => []
  | x :: xs => List.scanl max x xs

/-- Lines 59-61: cumulative return, running peak, and the drawdown series
`(cum - peak) / peak`, all aligned with the daily-return index. -/
def drawdownList (closes : List ℚ) : List ℚ :=
  let cum := cumprod ((dailyReturns closes).map (fun r => 1 + r))
  List.zipWith (fun c p => (c - p) / p) cum (runningMax cum)

/-- The trailing window of width `w` that pandas `rolling(w)` associates to
index `i` (the slice of indices `[i-w+1, i]`). -/
def windowEnd (w : ℕ) (xs : List ℚ) (i : ℕ) : List ℚ :=
  (xs.take (i+1)).drop (i+1-w)

/-- `series.rolling(window=w).f()`: entry `i` is NaN (`none`) while fewer
than `w` observations are available (`min_periods` defaults to the window
size), else `f` of the trailing window. -/
def rollingApply (w : ℕ) (f : List ℚ → Option ℚ) (xs : List ℚ) :
    List (Option ℚ) :=
  (List.range xs.length).map (fun i => if i+1 < w then none else f (windowEnd w xs i))

/-- `series.rolling(window=w).mean()`. -/
def rollingMean (w : ℕ) (xs : List ℚ) : List (Option ℚ) :=
  rollingApply w (fun win => some (mean win)) xs

/-- `series.rolling(window=w).std()`. -/
def rollingStd (sq : ℚ → ℚ) (w : ℕ) (xs : List ℚ) : List (Option ℚ) :=
  rollingApply w (fun win => sampleStd sq win) xs

/-- `series.iloc[-1]` on a series that may hold NaN entries; the source only
evaluates it on non-empty series (the empty-history case returns earlier),
so the `none` produced here for an empty list is unreachable in context. -/
def ilocLastO (l : List (Option ℚ)) : Option ℚ := l.getLast?.join

/-- Line 28/29: `hist["Close"].rolling(window=w).mean().iloc[-1]`. -/
def lastMA (w : ℕ) (closes : List ℚ) : Option ℚ := ilocLastO (rollingMean w closes)

/-- Lines 41-49: the trend string from the two last moving averages. -/
def trendString : Option ℚ → Option ℚ → String
  | some a, some b =>
      if a > b then "Upward" else if a < b then "Downward" else "Neutral"
  | _, _ => "Insufficient data for trend analysis"

/-- Line 64: `risk_free_rate = 0.02`. -/
def risk_free_rate : ℚ := 1/50

/-- Line 65: excess daily returns `daily_returns - risk_free_rate/252`. -/
def excessReturns (closes : List ℚ) : List ℚ :=
  (dailyReturns closes).map (fun r => r - risk_free_rate / 252)

/-- Line 53: annualized volatility `daily_returns.std() * np.sqrt(252)`.
NaN propagates through the product, hence the `Option.map`. -/
def volatilityOf (sq : ℚ → ℚ) (closes : List ℚ) : Option ℚ :=
  (sampleStd sq (dailyReturns closes)).map (fun s => s * sq 252)

/-- Line 56: 30-day rolling volatility, each defined entry scaled by √252. -/
def rollingVolatility (sq : ℚ → ℚ) (closes : List ℚ) : List (Option ℚ) :=
  (rollingStd sq 30 (dailyReturns closes)).map (fun o => o.map (fun s => s * sq 252))

/-- Line 66: `np.sqrt(252) * excess_returns.mean() / daily_returns.std()`.
The float expression evaluates left to right, so the √252 factor sits in the
numerator of the division; a NaN standard deviation (fewer than two returns)
makes the whole expression NaN, and a zero one sends the division to a
signed infinity via `fdiv`. -/
def sharpeRatioOf (sq : ℚ → ℚ) (closes : List ℚ) : FloatVal :=
  match sampleStd sq (dailyReturns closes) with
  | none => .nan
  | some s => fdiv (sq 252 * mean (excessReturns closes)) s

/-- Lines 69-70: the 30-day rolling Sharpe series
`(excess.rolling(30).mean() / daily.rolling(30).std()) * np.sqrt(252)`,
entrywise over the aligned rolling series.  Multiplying by the positive
constant √252 commutes with the float division, so the factor is placed in
the numerator exactly as in `sharpeRatioOf`. -/
def rollingSharpe (sq : ℚ → ℚ) (closes : List ℚ) : List FloatVal :=
  List.zipWith
    (fun mo so => match mo, so with
      | some m, some s => fdiv (sq 252 * m) s
      | _, _ => FloatVal.nan)
    (rollingMean 30 (excessReturns closes))
    (rollingStd sq 30 (dailyReturns closes))

/-- Lines 32-38: the YTD slice `hist.loc[ytd_start:]` (the bars dated at or
after January 1 of the current year) and, when it is non-empty, the price
change `last - first` and percent change `change / first * 100`. -/
def ytdChanges (hist : List PriceBar) (ytdStart : ℤ) : Option (ℚ × ℚ) :=
  match (hist.filter (fun b => decide (ytdStart ≤ b.date))).map (fun b => b.close) with
  | [] => none
  | c0 :: rest =>
      some ((c0 :: rest).getLastD 0 - c0, ((c0 :: rest).getLastD 0 - c0) / c0 * 100)

/-- The numeric fields of the result dict (lines 73-87). -/
structure StockStats where
  current_price : ℚ
  week52_high : ℚ
  week52_low : ℚ
  ma_50 : Option ℚ
  ma_200 : Option ℚ
  ytd_price_change : Option ℚ
  ytd_percent_change : Option ℚ
  trend : String
  volatility : Option ℚ
  sharpe_ratio : FloatVal
  max_drawdown : Option ℚ
  current_drawdown : ℚ
deriving DecidableEq

/-- Outcome of the numeric part of `analyze_stock`: the early error dict for
an empty history (line 20), the uncaught `IndexError` that
`drawdown.iloc[-1]` (line 86) raises when the drawdown series is empty, or
the completed numeric record. -/
inductive StatsOutcome where
  | errorRecord (msg : String)
  | indexError
  | ok (s : StockStats)
deriving DecidableEq

/-- Field contents of the result dict for a non-empty history (lines 23-87).
`cur` is the already-extracted `drawdown.iloc[-1]`.  The `getD 0` defaults
behind the `getLastD`/`listMax`/`listMin` fallbacks are unreachable: the
history is non-empty on every path that builds this record. -/
def buildStats (hist : List PriceBar) (info : StockInfo) (ytdStart : ℤ)
    (sq : ℚ → ℚ) (cur : ℚ) : StockStats :=
  let closes := hist.map (fun b => b.close)
  { current_price := info.currentPrice?.getD (closes.getLastD 0)
    week52_high := info.fiftyTwoWeekHigh?.getD ((listMax (hist.map (fun b => b.high))).getD 0)
    week52_low := info.fiftyTwoWeekLow?.getD ((listMin (hist.map (fun b => b.low))).getD 0)
    ma_50 := lastMA 50 closes
    ma_200 := lastMA 200 closes
    ytd_price_change := (ytdChanges hist ytdStart).map (fun p => p.1)
    ytd_percent_change := (ytdChanges hist ytdStart).map (fun p => p.2)
    trend := trendString (lastMA 50 closes) (lastMA 200 closes)
    volatility := volatilityOf sq closes
    sharpe_ratio := sharpeRatioOf sq closes
    max_drawdown := listMin (drawdownList closes)
    current_drawdown := cur }

/-- The numeric computation of `analyze_stock` (lines 19-92): the empty
history short-circuits into the error dict; otherwise the statistics are
computed, and extracting `drawdown.iloc[-1]` from an empty drawdown series
(which happens exactly when the history has a single bar with a nonzero
close) raises. -/
def computeStats (hist : List PriceBar) (info : StockInfo) (ytdStart : ℤ)
    (sq : ℚ → ℚ) : StatsOutcome :=
  if hist = [] then
    .errorRecord "No historical data available for the specified ticker."
  else
    match (drawdownList (hist.map (fun b => b.close))).getLast? with
    | none => .indexError
    | some cur => .ok (buildStats hist info ytdStart sq cur)

/-- A filesystem action performed by `analyze_stock`. -/
inductive FsEffect where
  | makedirs (dir : String)
  | savefig (path : String)
deriving DecidableEq

/-- Lines 95-215: the directory creation followed by the five chart writes,
in program order. -/
def chartEffects (ticker : String) : List FsEffect :=
  [ .makedirs "stock_charts",
    .savefig ("stock_charts/" ++ ticker ++ "_stockprice.png"),
    .savefig ("stock_charts/" ++ ticker ++ "_volatility.png"),
    .savefig ("stock_charts/" ++ ticker ++ "_drawdown.png"),
    .savefig ("stock_charts/" ++ ticker ++ "_sharpe_ratio.png"),
    .savefig ("stock_charts/" ++ ticker ++ "_dashboard.png") ]

/-- The full result dict: ticker, numeric fields, chart paths. -/
structure AnalysisResult where
  ticker : String
  stats : StockStats
  plot_file_path : String
  volatility_chart_path : String
  drawdown_chart_path : String
  sharpe_chart_path : String
  dashboard_chart_path : String
deriving DecidableEq

/-- Outcome of a call to `analyze_stock`. -/
inductive AnalyzeOutcome where
  | errorRecord (msg : String)
  | indexError
  | ok (r : AnalysisResult)
deriving DecidableEq

/-- Embedding of `analyze_stock`: the numeric computation, then — only when
it completed — the chart rendering with its filesystem effects and the
assembly of the returned dict.  Both failure modes happen before any
filesystem activity (the error return is line 20, the `IndexError` is
line 86, and the first filesystem call is `os.makedirs` on line 95). -/
def analyze_stock (ticker : String) (hist : List PriceBar) (info : StockInfo)
    (ytdStart : ℤ) (sq : ℚ → ℚ) : AnalyzeOutcome × List FsEffect :=
  match computeStats hist info ytdStart sq with
  | .errorRecord m => (.errorRecord m, [])
  | .indexError => (.indexError, [])
  | .ok s =>
      (.ok { ticker := ticker
             stats := s
             plot_file_path := "stock_charts/" ++ ticker ++ "_stockprice.png"
             volatility_chart_path := "stock_charts/" ++ ticker ++ "_volatility.png"
             drawdown_chart_path := "stock_charts/" ++ ticker ++ "_drawdown.png"
             sharpe_chart_path := "stock_charts/" ++ ticker ++ "_sharpe_ratio.png"
             dashboard_chart_path := "stock_charts/" ++ ticker ++ "_dashboard.png" },
       chartEffects ticker)

/-- Inversion: a successful `computeStats` pins every field of the record
and exposes the non-emptiness of the drawdown series. -/
lemma computeStats_ok_inv {hist : List PriceBar} {info : StockInfo} {y : ℤ}
    {q : ℚ → ℚ} {s : StockStats} (hc : computeStats hist info y q = .ok s) :
    (drawdownList (hist.map (fun b => b.close))).getLast? = some s.current_drawdown
    ∧ s = buildStats hist info y q s.current_drawdown := by
  unfold computeStats at hc
  split at hc
  · exact StatsOutcome.noConfusion hc
  · split at hc
    · exact StatsOutcome.noConfusion hc
    · next cur heq =>
        cases hc
        exact ⟨heq, rfl⟩

/-- An empty `stock.info` record: every `get` falls back to the history. -/
def noInfo : StockInfo :=
  { currentPrice? := none, fiftyTwoWeekHigh? := none, fiftyTwoWeekLow? := none }

/-- A single-bar history with close 100. -/
def oneBarHist : List PriceBar :=
  [{ date := 0, open_price := 100, high := 100, low := 100, close := 100, volume := 0 }]

/-- C3: evaluation of the code at the failing input.  A one-bar history is
non-empty, so the guard on line 19 does not fire; but it yields no daily
return, the drawdown series is empty, and `drawdown.iloc[-1]` (line 86)
raises an uncaught `IndexError` instead of returning a result — so the
analysis neither succeeds nor produces the documented
`InsufficientDataError`-style record, contradicting graceful degradation. -/
theorem c3_one_bar_raises :
    analyze_stock "AAPL" oneBarHist noInfo 0 id = (.indexError, []) := rfl

/-- `true` exactly on the two failure outcomes. -/
def isErrB : AnalyzeOutcome → Bool
  | .ok _ => false
  | _ => true

/-- C10: an empty fetched history makes `analyze_stock` return the error
record at once with an empty effect trace — no directory creation, no chart
writes, and the returned record carries nothing but the message (the
`errorRecord` constructor has no numeric or path fields); more generally
every non-`ok` outcome has an empty effect trace, because both failure
points precede the first filesystem operation (line 95). -/
theorem c10_empty_history_no_effects (t : String) (info : StockInfo) (y : ℤ)
    (q : ℚ → ℚ) :
    analyze_stock t [] info y q
      = (.errorRecord "No historical data available for the specified ticker.", [])
    ∧ ∀ hist, isErrB (analyze_stock t hist info y q).1 = true →
        (analyze_stock t hist info y q).2 = [] := by
  constructor
  · rfl
  · intro hist h
    cases hc : computeStats hist info y q with
    | errorRecord m => simp [analyze_stock, hc]
    | indexError => simp [analyze_stock, hc]
    | ok s => simp [analyze_stock, hc, isErrB] at h

/-- Witness for C10: the empty history is a non-`ok` run with no effects. -/
theorem c10_empty_history_no_effects_witness :
    isErrB (analyze_stock "TEST" [] noInfo 0 id).1 = true
    ∧ (analyze_stock "TEST" [] noInfo 0 id).2 = [] :=
  ⟨rfl, (c10_empty_history_no_effects "TEST" noInfo 0 id).2 [] rfl⟩

/-- The numeric fields of an outcome, when it has any. -/
def statsOf : AnalyzeOutcome → Option StockStats
  | .ok r => some r.stats
  | _ => none

/-- C8: the numeric fields are a pure function of the price series, the
collaborator-supplied reference fields, the as-of year boundary and the
square-root function — two runs on identical such inputs produce identical
numeric fields, even under different ticker labels (the ticker only names
the output artifacts). -/
theorem c8_numeric_purity (t1 t2 : String) (h1 h2 : List PriceBar)
    (i1 i2 : StockInfo) (y1 y2 : ℤ) (q1 q2 : ℚ → ℚ)
    (hh : h1 = h2) (hi : i1 = i2) (hy : y1 = y2) (hq : q1 = q2) :
    statsOf (analyze_stock t1 h1 i1 y1 q1).1
      = statsOf (analyze_stock t2 h2 i2 y2 q2).1 := by
  subst hh; subst hi; subst hy; subst hq
  cases hc : computeStats h1 i1 y1 q1 <;> simp [analyze_stock, hc, statsOf]

/-- Witness for C8 with two runs under different tickers. -/
theorem c8_numeric_purity_witness :
    (oneBarHist = oneBarHist ∧ noInfo = noInfo ∧ (0 : ℤ) = 0
      ∧ (id : ℚ → ℚ) = id)
    ∧ statsOf (analyze_stock "A" oneBarHist noInfo 0 id).1
        = statsOf (analyze_stock "B" oneBarHist noInfo 0 id).1 :=
  ⟨⟨rfl, rfl, rfl, rfl⟩,
    c8_numeric_purity "A" "B" oneBarHist oneBarHist noInfo noInfo 0 0 id id
      rfl rfl rfl rfl⟩

/-! ## Trend classification (C5) -/

/-- The last defined (non-NaN) entry of a rolling series — the spec's
notion of "latest defined moving average". -/
def lastDefined (l : List (Option ℚ)) : Option ℚ := (l.filterMap id).getLast?

lemma getLast?_range_map {α : Type} (n : ℕ) (f : ℕ → α) :
    ((List.range n).map f).getLast? = if n = 0 then none else some (f (n-1)) := by
  cases n with
  | zero => rfl
  | succ m =>
      rw [List.range_succ m, List.map_append]
      simp [List.getLast?_concat]

lemma lastDefined_range_ite (n w : ℕ) (hw : 1 ≤ w) (g : ℕ → ℚ) :
    lastDefined ((List.range n).map (fun i => if i+1 < w then none else some (g i)))
      = if n < w then none else some (g (n-1)) := by
  induction n with
  | zero =>
      have h0 : 0 < w := hw
      simp [lastDefined, h0]
  | succ m ih =>
      unfold lastDefined at ih ⊢
      rw [List.range_succ m, List.map_append, List.filterMap_append]
      by_cases hm : m + 1 < w
      · have hnil : (([m].map (fun i => if i+1 < w then none else some (g i))).filterMap id) = [] := by
          simp [hm]
        rw [hnil, List.append_nil, ih, if_pos (by omega : m < w), if_pos hm]
      · have hone : (([m].map (fun i => if i+1 < w then none else some (g i))).filterMap id) = [g m] := by
          simp [hm]
        rw [hone, List.getLast?_concat, if_neg hm]
        simp

/-- Closed form of `rolling(w).mean().iloc[-1]`: NaN while the series is
shorter than the window, else the mean of the last `w` closes. -/
lemma lastMA_eq (w : ℕ) (xs : List ℚ) (hw : 1 ≤ w) :
    lastMA w xs
      = if xs.length < w then none else some (mean (windowEnd w xs (xs.length - 1))) := by
  unfold lastMA ilocLastO rollingMean rollingApply
  rw [getLast?_range_map]
  by_cases h0 : xs.length = 0
  · rw [if_pos h0, if_pos (by omega : xs.length < w)]
    rfl
  · rw [if_neg h0]
    have hlen : xs.length - 1 + 1 = xs.length := by omega
    rw [hlen]
    simp [Option.join]

lemma lastDefined_rollingMean (w : ℕ) (xs : List ℚ) (hw : 1 ≤ w) :
    lastDefined (rollingMean w xs)
      = if xs.length < w then none else some (mean (windowEnd w xs (xs.length - 1))) := by
  unfold rollingMean rollingApply
  exact lastDefined_range_ite xs.length w hw _

/-- For a trailing rolling mean the NaN entries form a prefix, so the last
entry (`iloc[-1]`, what the code compares) and the last defined entry (what
the claim speaks about) coincide. -/
lemma lastMA_eq_lastDefined (w : ℕ) (xs : List ℚ) (hw : 1 ≤ w) :
    lastMA w xs = lastDefined (rollingMean w xs) := by
  rw [lastMA_eq w xs hw, lastDefined_rollingMean w xs hw]

lemma lastDefined_rollingMean_none_iff (w : ℕ) (xs : List ℚ) (hw : 1 ≤ w) :
    lastDefined (rollingMean w xs) = none ↔ xs.length < w := by
  rw [lastDefined_rollingMean w xs hw]
  split_ifs with h <;> simp [h]

/-- C5: in every completed analysis the reported trend is the comparison of
the last defined 50-day and 200-day moving averages: Upward iff 50 > 200,
Downward iff 50 < 200, Neutral iff equal, and the insufficient-data string
exactly when either moving average has no defined entry, which in turn
happens exactly when the series is shorter than that window. -/
theorem c5_trend_classification (hist : List PriceBar) (info : StockInfo) (y : ℤ)
    (q : ℚ → ℚ) (s : StockStats) (hc : computeStats hist info y q = .ok s) :
    s.trend = trendString (lastDefined (rollingMean 50 (hist.map (fun b => b.close))))
        (lastDefined (rollingMean 200 (hist.map (fun b => b.close))))
    ∧ (lastDefined (rollingMean 50 (hist.map (fun b => b.close))) = none
        ↔ (hist.map (fun b => b.close)).length < 50)
    ∧ (lastDefined (rollingMean 200 (hist.map (fun b => b.close))) = none
        ↔ (hist.map (fun b => b.close)).length < 200)
    ∧ (s.trend = "Insufficient data for trend analysis"
        ↔ lastDefined (rollingMean 50 (hist.map (fun b => b.close))) = none
          ∨ lastDefined (rollingMean 200 (hist.map (fun b => b.close))) = none)
    ∧ (∀ a b, lastDefined (rollingMean 50 (hist.map (fun b => b.close))) = some a
        → lastDefined (rollingMean 200 (hist.map (fun b => b.close))) = some b
        → ((s.trend = "Upward" ↔ b < a) ∧ (s.trend = "Downward" ↔ a < b)
            ∧ (s.trend = "Neutral" ↔ a = b))) := by
  obtain ⟨hdd, hs⟩ := computeStats_ok_inv hc
  have ht : s.trend
      = trendString (lastMA 50 (hist.map (fun b => b.close)))
          (lastMA 200 (hist.map (fun b => b.close))) := by
    rw [hs]; rfl
  rw [lastMA_eq_lastDefined 50 _ (by norm_num),
      lastMA_eq_lastDefined 200 _ (by norm_num)] at ht
  refine ⟨ht, lastDefined_rollingMean_none_iff 50 _ (by norm_num),
    lastDefined_rollingMean_none_iff 200 _ (by norm_num), ?_, ?_⟩
  · rw [ht]
    rcases hA : lastDefined (rollingMean 50 (hist.map (fun b => b.close))) with _ | a <;>
      rcases hB : lastDefined (rollingMean 200 (hist.map (fun b => b.close))) with _ | b <;>
        rw [hA, hB] <;> simp only [trendString]
    · simp
    · simp
    · simp
    · constructor
      · intro hstr
        split_ifs at hstr <;> exact absurd hstr (by decide)
      · rintro (h | h) <;> exact Option.noConfusion h
  · intro a b hA hB
    rw [ht, hA, hB]
    simp only [trendString]
    by_cases h1 : a > b
    · rw [if_pos h1]
      exact ⟨iff_of_true rfl h1,
        iff_of_false (by decide) (lt_asymm h1),
        iff_of_false (by decide) (fun he => lt_irrefl b (he ▸ h1))⟩
    · by_cases h2 : a < b
      · rw [if_neg h1, if_pos h2]
        exact ⟨iff_of_false (by decide) h1,
          iff_of_true rfl h2,
          iff_of_false (by decide) (ne_of_lt h2)⟩
      · rw [if_neg h1, if_neg h2]
        exact ⟨iff_of_false (by decide) h1,
          iff_of_false (by decide) h2,
          iff_of_true rfl (le_antisymm (le_of_not_lt h1) (le_of_not_lt h2))⟩

/-- A default record used to project `ok` outcomes in closed statements. -/
def defaultStats : StockStats :=
  { current_price := 0, week52_high := 0, week52_low := 0, ma_50 := none,
    ma_200 := none, ytd_price_change := none, ytd_percent_change := none,
    trend := "", volatility := none, sharpe_ratio := .nan,
    max_drawdown := none, current_drawdown := 0 }

/-- The record inside an `ok` outcome, or the supplied default. -/
def okStats (o : StatsOutcome) (d : StockStats) : StockStats :=
  match o with
  | .ok s => s
  | _ => d

/-- A two-bar history with closes 4 then 2. -/
def twoBarHist : List PriceBar :=
  [{ date := 0, open_price := 4, high := 4, low := 4, close := 4, volume := 0 },
   { date := 1, open_price := 2, high := 2, low := 2, close := 2, volume := 0 }]

/-- Witness for C5 on a concrete two-bar history. -/
theorem c5_trend_classification_witness :
    computeStats twoBarHist noInfo 0 id
        = .ok (okStats (computeStats twoBarHist noInfo 0 id) defaultStats)
    ∧ (okStats (computeStats twoBarHist noInfo 0 id) defaultStats).trend
        = trendString (lastDefined (rollingMean 50 (twoBarHist.map (fun b => b.close))))
            (lastDefined (rollingMean 200 (twoBarHist.map (fun b => b.close)))) :=
  ⟨rfl, (c5_trend_classification twoBarHist noInfo 0 id
      (okStats (computeStats twoBarHist noInfo 0 id) defaultStats) rfl).1⟩

/-! ## Drawdown invariants (C4) -/

lemma one_add_dailyReturns_pos :
    ∀ (closes : List ℚ), (∀ c ∈ closes, 0 < c) →
      ∀ r ∈ dailyReturns closes, 0 < 1 + r := by
  intro closes
  induction closes with
  | nil => intro _ r hr; simp [dailyReturns] at hr
  | cons c rest ih =>
      intro hpos r hr
      cases rest with
      | nil => simp [dailyReturns] at hr
      | cons c2 rest2 =>
          have hred : dailyReturns (c :: c2 :: rest2)
              = (c2 / c - 1) :: dailyReturns (c2 :: rest2) := rfl
          rw [hred] at hr
          rcases List.mem_cons.mp hr with h | h
          · subst h
            have hc : 0 < c := hpos c (by simp)
            have hc2 : 0 < c2 := hpos c2 (by simp)
            have hdiv : 0 < c2 / c := div_pos hc2 hc
            linarith
          · exact ih (fun x hx => hpos x (List.mem_cons_of_mem c hx)) r h

lemma scanl_mul_pos :
    ∀ (xs : List ℚ) (a : ℚ), 0 < a → (∀ x ∈ xs, 0 < x) →
      ∀ y ∈ List.scanl (fun p v => p * v) a xs, 0 < y := by
  intro xs
  induction xs with
  | nil =>
      intro a ha _ y hy
      simp [List.scanl] at hy
      subst hy; exact ha
  | cons x xs ih =>
      intro a ha hx y hy
      simp only [List.scanl] at hy
      rcases List.mem_cons.mp hy with h | h
      · subst h; exact ha
      · exact ih (a * x) (mul_pos ha (hx x (by simp)))
          (fun z hz => hx z (List.mem_cons_of_mem x hz)) y h

lemma cumprod_pos (l : List ℚ) (h : ∀ x ∈ l, 0 < x) : ∀ y ∈ cumprod l, 0 < y := by
  cases l with
  | nil => intro y hy; simp [cumprod] at hy
  | cons x xs =>
      exact scanl_mul_pos xs x (h x (by simp))
        (fun z hz => h z (List.mem_cons_of_mem x hz))

lemma forall2_le_scanl_max :
    ∀ (xs : List ℚ) (a : ℚ), List.Forall₂ (· ≤ ·) (a :: xs) (List.scanl max a xs) := by
  intro xs
  induction xs with
  | nil => intro a; simp [List.scanl]
  | cons x xs ih =>
      intro a
      obtain ⟨b, l2, hab, htail, heq⟩ := List.forall₂_cons_left_iff.mp (ih (max a x))
      show List.Forall₂ (· ≤ ·) (a :: x :: xs) (a :: List.scanl max (max a x) xs)
      rw [heq]
      exact List.Forall₂.cons le_rfl
        (List.Forall₂.cons (le_trans (le_max_right a x) hab) htail)

lemma zip_dd_nonpos :
    ∀ {l1 l2 : List ℚ}, List.Forall₂ (· ≤ ·) l1 l2 → (∀ c ∈ l1, 0 < c) →
      ∀ d ∈ List.zipWith (fun c p => (c - p) / p) l1 l2, d ≤ 0 := by
  intro l1 l2 h
  induction h with
  | nil => intro _ d hd; simp at hd
  | @cons a b l1 l2 hab htail ih =>
      intro hpos d hd
      rcases List.mem_cons.mp hd with h | h
      · subst h
        have ha : 0 < a := hpos a (by simp)
        have hb : 0 < b := lt_of_lt_of_le ha hab
        exact div_nonpos_iff.mpr (Or.inr ⟨sub_nonpos.mpr hab, le_of_lt hb⟩)
      · exact ih (fun c hc => hpos c (List.mem_cons_of_mem a hc)) d h

lemma drawdown_nonpos (closes : List ℚ) (h : ∀ c ∈ closes, 0 < c) :
    ∀ d ∈ drawdownList closes, d ≤ 0 := by
  have hdef : drawdownList closes
      = List.zipWith (fun c p => (c - p) / p)
          (cumprod ((dailyReturns closes).map (fun r => 1 + r)))
          (runningMax (cumprod ((dailyReturns closes).map (fun r => 1 + r)))) := rfl
  have hC : ∀ y ∈ cumprod ((dailyReturns closes).map (fun r => 1 + r)), 0 < y := by
    refine cumprod_pos _ ?_
    intro z hz
    obtain ⟨r, hr, rfl⟩ := List.mem_map.mp hz
    exact one_add_dailyReturns_pos closes h r hr
  rw [hdef]
  rcases hcc : cumprod ((dailyReturns closes).map (fun r => 1 + r)) with _ | ⟨c, cs⟩
  · intro d hd; simp at hd
  · rw [hcc] at hC
    have hrm : runningMax (c :: cs) = List.scanl max c cs := rfl
    rw [hrm]
    exact zip_dd_nonpos (forall2_le_scanl_max cs c) hC

lemma foldl_min_props :
    ∀ (ys : List ℚ) (x : ℚ),
      (ys.foldl min x) ∈ x :: ys ∧ ys.foldl min x ≤ x ∧ ∀ y ∈ ys, ys.foldl min x ≤ y := by
  intro ys
  induction ys with
  | nil => intro x; exact ⟨by simp, le_rfl, by simp⟩
  | cons y ys ih =>
      intro x
      obtain ⟨hmem, hlex, hall⟩ := ih (min x y)
      refine ⟨?_, ?_, ?_⟩
      · rcases List.mem_cons.mp hmem with h | h
        · rcases min_choice x y with hxy | hxy
          · simp only [List.foldl]
            rw [h, hxy]; simp
          · simp only [List.foldl]
            rw [h, hxy]; simp
        · simp only [List.foldl]
          exact List.mem_cons_of_mem x (List.mem_cons_of_mem y h)
      · exact le_trans hlex (min_le_left x y)
      · intro z hz
        rcases List.mem_cons.mp hz with h | h
        · rw [h]; exact le_trans hlex (min_le_right x y)
        · exact hall z h

lemma listMin_spec (l : List ℚ) (m : ℚ) (h : listMin l = some m) :
    m ∈ l ∧ ∀ x ∈ l, m ≤ x := by
  cases l with
  | nil => exact Option.noConfusion h
  | cons x xs =>
      have hm : xs.foldl min x = m := by
        have := h
        unfold listMin at this
        exact Option.some.inj this
      obtain ⟨hmem, hlex, hall⟩ := foldl_min_props xs x
      subst hm
      refine ⟨hmem, ?_⟩
      intro z hz
      rcases List.mem_cons.mp hz with hzx | hzs
      · subst hzx; exact hlex
      · exact hall z hzs

/-- C4: for positive closes every drawdown entry is non-positive, and in
every completed analysis the reported `max_drawdown` is defined and is the
minimum of the drawdown sequence (a member that bounds every entry from
below) while `current_drawdown` is the last entry of the sequence. -/
theorem c4_drawdown_invariants (hist : List PriceBar) (info : StockInfo) (y : ℤ)
    (q : ℚ → ℚ) (s : StockStats)
    (hpos : ∀ b ∈ hist, 0 < b.close)
    (hc : computeStats hist info y q = .ok s) :
    (∀ d ∈ drawdownList (hist.map (fun b => b.close)), d ≤ 0)
    ∧ (s.max_drawdown).isSome = true
    ∧ (∀ m, s.max_drawdown = some m →
        m ∈ drawdownList (hist.map (fun b => b.close))
        ∧ ∀ d ∈ drawdownList (hist.map (fun b => b.close)), m ≤ d)
    ∧ (drawdownList (hist.map (fun b => b.close))).getLast? = some s.current_drawdown := by
  obtain ⟨hdd, hs⟩ := computeStats_ok_inv hc
  have hcl : ∀ c ∈ hist.map (fun b => b.close), 0 < c := by
    intro c hcm
    obtain ⟨b, hb, rfl⟩ := List.mem_map.mp hcm
    exact hpos b hb
  have hmd : s.max_drawdown = listMin (drawdownList (hist.map (fun b => b.close))) := by
    rw [hs]; rfl
  refine ⟨drawdown_nonpos _ hcl, ?_, ?_, hdd⟩
  · rw [hmd]
    rcases hne : drawdownList (hist.map (fun b => b.close)) with _ | ⟨d, ds⟩
    · rw [hne] at hdd; exact Option.noConfusion hdd
    · rw [hne]; rfl
  · intro m hm
    rw [hmd] at hm
    exact listMin_spec _ m hm

/-- A three-bar history with closes 4, 2, 3 (positive, non-degenerate). -/
def threeBarHist : List PriceBar :=
  [{ date := 0, open_price := 4, high := 4, low := 4, close := 4, volume := 0 },
   { date := 1, open_price := 2, high := 2, low := 2, close := 2, volume := 0 },
   { date := 2, open_price := 3, high := 3, low := 3, close := 3, volume := 0 }]

/-- Witness for C4 on the concrete three-bar history. -/
theorem c4_drawdown_invariants_witness :
    (∀ b ∈ threeBarHist, 0 < b.close)
    ∧ computeStats threeBarHist noInfo 0 id
        = .ok (okStats (computeStats threeBarHist noInfo 0 id) defaultStats)
    ∧ ((∀ d ∈ drawdownList (threeBarHist.map (fun b => b.close)), d ≤ 0)
      ∧ ((okStats (computeStats threeBarHist noInfo 0 id) defaultStats).max_drawdown).isSome = true) := by
  have h := c4_drawdown_invariants threeBarHist noInfo 0 id
      (okStats (computeStats threeBarHist noInfo 0 id) defaultStats) (by decide) rfl
  exact ⟨by decide, rfl, h.1, h.2.1⟩

/-! ## Sharpe ratio formula (C6) -/

lemma sum_map_sub_const (xs : List ℚ) (c : ℚ) :
    (xs.map (fun x => x - c)).sum = xs.sum - xs.length * c := by
  induction xs with
  | nil => simp
  | cons x xs ih =>
      simp only [List.map_cons, List.sum_cons, List.length_cons, ih]
      push_cast
      ring

lemma mean_map_sub_const (xs : List ℚ) (c : ℚ) (h : 0 < xs.length) :
    mean (xs.map (fun x => x - c)) = mean xs - c := by
  unfold mean
  rw [List.length_map, sum_map_sub_const]
  have hn : (xs.length : ℚ) ≠ 0 := by
    exact_mod_cast Nat.pos_iff_ne_zero.mp h
  field_simp

lemma sampleVar_map_sub_const (xs : List ℚ) (c : ℚ) :
    sampleVar (xs.map (fun x => x - c)) = sampleVar xs := by
  unfold sampleVar
  rw [List.length_map]
  by_cases h2 : xs.length < 2
  · rw [if_pos h2, if_pos h2]
  · rw [if_neg h2, if_neg h2]
    have hpos : 0 < xs.length := by omega
    have hmaps : ((xs.map (fun x => x - c)).map (fun x => (x - (mean xs - c))^2))
        = xs.map (fun x => (x - mean xs)^2) := by
      rw [List.map_map]
      apply List.map_congr_left
      intro x _
      simp only [Function.comp_apply]
      ring
    rw [mean_map_sub_const xs c hpos, hmaps]

lemma sampleStd_map_sub_const (sq : ℚ → ℚ) (xs : List ℚ) (c : ℚ) :
    sampleStd sq (xs.map (fun x => x - c)) = sampleStd sq xs := by
  unfold sampleStd
  rw [sampleVar_map_sub_const]

lemma sampleStd_excess_eq (sq : ℚ → ℚ) (closes : List ℚ) :
    sampleStd sq (excessReturns closes) = sampleStd sq (dailyReturns closes) := by
  unfold excessReturns
  exact sampleStd_map_sub_const sq (dailyReturns closes) (risk_free_rate / 252)

lemma windowEnd_map (w : ℕ) (f : ℚ → ℚ) (xs : List ℚ) (i : ℕ) :
    windowEnd w (xs.map f) i = (windowEnd w xs i).map f := by
  unfold windowEnd
  rw [← List.map_take, ← List.map_drop]

lemma rollingStd_map_sub (sq : ℚ → ℚ) (w : ℕ) (xs : List ℚ) (c : ℚ) :
    rollingStd sq w (xs.map (fun x => x - c)) = rollingStd sq w xs := by
  unfold rollingStd rollingApply
  rw [List.length_map]
  apply List.map_congr_left
  intro i _
  by_cases hi : i + 1 < w
  · rw [if_pos hi, if_pos hi]
  · rw [if_neg hi, if_neg hi, windowEnd_map]
    simp only [sampleStd_map_sub_const]

lemma rollingStd_excess_eq (sq : ℚ → ℚ) (closes : List ℚ) :
    rollingStd sq 30 (excessReturns closes) = rollingStd sq 30 (dailyReturns closes) := by
  unfold excessReturns
  exact rollingStd_map_sub sq 30 (dailyReturns closes) (risk_free_rate / 252)

/-- Sharpe exactly as the claim words it: √252 times the mean of the excess
daily returns divided by the standard deviation of those excess returns. -/
def sharpeSpec (sq : ℚ → ℚ) (closes : List ℚ) : FloatVal :=
  match sampleStd sq (excessReturns closes) with
  | none => .nan
  | some sd => fdiv (sq 252 * mean (excessReturns closes)) sd

/-- Rolling Sharpe exactly as the claim words it: the same formula over each
trailing 30-entry window of excess returns. -/
def rollingSharpeSpec (sq : ℚ → ℚ) (closes : List ℚ) : List FloatVal :=
  List.zipWith
    (fun mo so => match mo, so with
      | some m, some s => fdiv (sq 252 * m) s
      | _, _ => FloatVal.nan)
    (rollingMean 30 (excessReturns closes))
    (rollingStd sq 30 (excessReturns closes))

/-- C6: the reported annualized Sharpe ratio — coded with the standard
deviation of the raw daily returns in the denominator — equals the claim's
formula with the standard deviation of the excess daily returns, because
subtracting the constant daily risk-free rate leaves the sample standard
deviation unchanged; the 30-day rolling Sharpe likewise agrees with the same
formula taken over each trailing 30-entry window of excess returns. -/
theorem c6_sharpe_formula (hist : List PriceBar) (info : StockInfo) (y : ℤ)
    (q : ℚ → ℚ) (s : StockStats)
    (_hlen : 2 ≤ hist.length)
    (_hnd : sampleVar (dailyReturns (hist.map (fun b => b.close))) ≠ some 0)
    (hc : computeStats hist info y q = .ok s) :
    s.sharpe_ratio = sharpeSpec q (hist.map (fun b => b.close))
    ∧ rollingSharpe q (hist.map (fun b => b.close))
        = rollingSharpeSpec q (hist.map (fun b => b.close)) := by
  have hstat : s.sharpe_ratio = sharpeRatioOf q (hist.map (fun b => b.close)) := by
    rw [(computeStats_ok_inv hc).2]; rfl
  constructor
  · rw [hstat]
    unfold sharpeRatioOf sharpeSpec
    rw [sampleStd_excess_eq]
  · unfold rollingSharpe rollingSharpeSpec
    rw [rollingStd_excess_eq]

/-- Witness for C6 on the three-bar history (returns -1/2 and 1/2, sample
variance 1/2, hence non-degenerate). -/
theorem c6_sharpe_formula_witness :
    (2 ≤ threeBarHist.length
      ∧ sampleVar (dailyReturns (threeBarHist.map (fun b => b.close))) ≠ some 0
      ∧ computeStats threeBarHist noInfo 0 id
          = .ok (okStats (computeStats threeBarHist noInfo 0 id) defaultStats))
    ∧ (okStats (computeStats threeBarHist noInfo 0 id) defaultStats).sharpe_ratio
        = sharpeSpec id (threeBarHist.map (fun b => b.close)) :=
  ⟨⟨by decide, by norm_num [sampleVar, dailyReturns, threeBarHist, mean], rfl⟩,
    (c6_sharpe_formula threeBarHist noInfo 0 id
      (okStats (computeStats threeBarHist noInfo 0 id) defaultStats)
      (by decide) (by norm_num [sampleVar, dailyReturns, threeBarHist, mean]) rfl).1⟩

/-! ## Degenerate constant series (C2) -/

/-- A history of `n` bars all carrying the same price `c`. -/
def constBars (n : ℕ) (c : ℚ) : List PriceBar :=
  (List.range n).map (fun i =>
    { date := Int.ofNat i, open_price := c, high := c, low := c, close := c, volume := 0 })

lemma constBars_closes (n : ℕ) (c : ℚ) :
    (constBars n c).map (fun b => b.close) = List.replicate n c := by
  unfold constBars
  rw [List.map_map]
  have h : ((fun b => PriceBar.close b) ∘ (fun i : ℕ =>
      ({ date := Int.ofNat i, open_price := c, high := c, low := c, close := c,
         volume := 0 } : PriceBar))) = fun _ => c := rfl
  rw [h, List.map_const', List.length_range]

lemma dailyReturns_replicate (n : ℕ) (c : ℚ) (hc : c ≠ 0) :
    dailyReturns (List.replicate n c) = List.replicate (n-1) 0 := by
  unfold dailyReturns
  cases n with
  | zero => simp
  | succ m =>
      rw [List.replicate_succ]
      simp only [List.tail_cons]
      rw [← List.replicate_succ, List.zipWith_replicate]
      have hmin : min (m+1) m = m := by omega
      rw [hmin]
      have hval : c / c - 1 = 0 := by rw [div_self hc]; ring
      rw [hval]
      simp

lemma mean_replicate (m : ℕ) (x : ℚ) (hm : 0 < m) :
    mean (List.replicate m x) = x := by
  unfold mean
  rw [List.sum_replicate, List.length_replicate, nsmul_eq_mul]
  have hm0 : (m:ℚ) ≠ 0 := by exact_mod_cast Nat.pos_iff_ne_zero.mp hm
  field_simp

lemma sampleVar_replicate (m : ℕ) (x : ℚ) (hm : 2 ≤ m) :
    sampleVar (List.replicate m x) = some 0 := by
  unfold sampleVar
  rw [List.length_replicate, if_neg (by omega), mean_replicate m x (by omega),
    List.map_replicate]
  simp

lemma scanl_stable (f : ℚ → ℚ → ℚ) (a b : ℚ) (hf : f a b = a) :
    ∀ k, List.scanl f a (List.replicate k b) = List.replicate (k+1) a := by
  intro k
  induction k with
  | zero => simp [List.scanl]
  | succ m ih =>
      rw [List.replicate_succ, List.scanl_cons, hf, ih]
      rfl

lemma drawdownList_replicate (n : ℕ) (c : ℚ) (hc : c ≠ 0) :
    drawdownList (List.replicate n c) = List.replicate (n-1) 0 := by
  have hdef : drawdownList (List.replicate n c)
      = List.zipWith (fun cu p => (cu - p) / p)
          (cumprod ((dailyReturns (List.replicate n c)).map (fun r => 1 + r)))
          (runningMax (cumprod ((dailyReturns (List.replicate n c)).map (fun r => 1 + r)))) := rfl
  rw [hdef, dailyReturns_replicate n c hc, List.map_replicate]
  have h1 : (1:ℚ) + 0 = 1 := by norm_num
  rw [h1]
  rcases Nat.eq_zero_or_pos (n-1) with h0 | hpos
  · rw [h0]; simp [cumprod, runningMax]
  · obtain ⟨m, hm⟩ : ∃ m, n - 1 = m + 1 := ⟨n - 2, by omega⟩
    rw [hm]
    have hcum : cumprod (List.replicate (m+1) (1:ℚ)) = List.replicate (m+1) 1 := by
      rw [List.replicate_succ]
      show List.scanl (fun a b => a * b) 1 (List.replicate m 1) = _
      rw [scanl_stable _ 1 1 (by norm_num) m]
      rfl
    have hrm : runningMax (List.replicate (m+1) (1:ℚ)) = List.replicate (m+1) 1 := by
      rw [List.replicate_succ]
      show List.scanl max 1 (List.replicate m 1) = _
      rw [scanl_stable max 1 1 (by simp) m]
      rfl
    rw [hcum, hrm, List.zipWith_replicate]
    have hmin : min (m+1) (m+1) = m+1 := by omega
    rw [hmin]
    norm_num

lemma windowEnd_replicate (w n : ℕ) (c : ℚ) (hw : 1 ≤ w) (hwn : w ≤ n) :
    windowEnd w (List.replicate n c) (n-1) = List.replicate w c := by
  unfold windowEnd
  have h1 : n - 1 + 1 = n := by omega
  rw [h1, List.take_replicate, List.drop_replicate, min_self]
  have harg : n - (n - w) = w := by omega
  rw [harg]

lemma lastMA_replicate (w n : ℕ) (c : ℚ) (hw : 1 ≤ w) (hwn : w ≤ n) :
    lastMA w (List.replicate n c) = some c := by
  rw [lastMA_eq w _ hw, List.length_replicate]
  rw [if_neg (by omega : ¬ n < w), windowEnd_replicate w n c hw hwn,
    mean_replicate w c (by omega)]

def isOkB : StatsOutcome → Bool := fun o =>
  match o with
  | .ok _ => true
  | _ => false

lemma ok_of_isOkB {o : StatsOutcome} (h : isOkB o = true) (d : StockStats) :
    o = .ok (okStats o d) := by
  cases o with
  | errorRecord m => exact absurd h (by simp [isOkB])
  | indexError => exact absurd h (by simp [isOkB])
  | ok s => rfl

lemma computeStats_const_isOk (n : ℕ) (c : ℚ) (info : StockInfo) (y : ℤ)
    (q : ℚ → ℚ) (hn : 2 ≤ n) (hc : c ≠ 0) :
    isOkB (computeStats (constBars n c) info y q) = true := by
  unfold computeStats
  have hne : constBars n c ≠ [] := by
    unfold constBars
    intro h
    have hlen := congrArg List.length h
    simp at hlen
    omega
  rw [if_neg hne]
  have hdd : drawdownList ((constBars n c).map (fun b => b.close))
      = List.replicate (n-1) 0 := by
    rw [constBars_closes, drawdownList_replicate n c hc]
  rw [hdd]
  obtain ⟨m, hm⟩ : ∃ m, n - 1 = m + 1 := ⟨n - 2, by omega⟩
  rw [hm, List.replicate_succ', List.getLast?_concat]
  rfl

lemma computeStats_const_fields (n : ℕ) (c : ℚ) (info : StockInfo) (y : ℤ)
    (q : ℚ → ℚ) (hn : 200 ≤ n) (hc : c ≠ 0) (hq0 : q 0 = 0) (hq252 : 0 < q 252)
    (s : StockStats) (hok : computeStats (constBars n c) info y q = .ok s) :
    s.volatility = some 0 ∧ s.sharpe_ratio = FloatVal.ninf ∧ s.trend = "Neutral"
    ∧ drawdownList ((constBars n c).map (fun b => b.close)) = List.replicate (n-1) 0 := by
  obtain ⟨hdd, hs⟩ := computeStats_ok_inv hok
  have hcl : (constBars n c).map (fun b => b.close) = List.replicate n c :=
    constBars_closes n c
  have hret : dailyReturns ((constBars n c).map (fun b => b.close))
      = List.replicate (n-1) 0 := by
    rw [hcl, dailyReturns_replicate n c hc]
  have hstd : sampleStd q (dailyReturns ((constBars n c).map (fun b => b.close)))
      = some 0 := by
    rw [hret]
    unfold sampleStd
    rw [sampleVar_replicate (n-1) 0 (by omega)]
    simp [hq0]
  refine ⟨?_, ?_, ?_, by rw [hcl, drawdownList_replicate n c hc]⟩
  · have hv : s.volatility
        = volatilityOf q ((constBars n c).map (fun b => b.close)) := by
      rw [hs]; rfl
    rw [hv]
    unfold volatilityOf
    rw [hstd]
    simp
  · have hsh : s.sharpe_ratio
        = sharpeRatioOf q ((constBars n c).map (fun b => b.close)) := by
      rw [hs]; rfl
    rw [hsh]
    unfold sharpeRatioOf
    rw [hstd]
    have hmean : mean (excessReturns ((constBars n c).map (fun b => b.close)))
        = -(risk_free_rate/252) := by
      unfold excessReturns
      rw [hret, List.map_replicate, mean_replicate (n-1) _ (by omega)]
      ring
    show fdiv (q 252 * mean (excessReturns ((constBars n c).map (fun b => b.close)))) 0
        = FloatVal.ninf
    rw [hmean]
    have hneg : q 252 * -(risk_free_rate/252) < 0 := by
      apply mul_neg_of_pos_of_neg hq252
      unfold risk_free_rate
      norm_num
    unfold fdiv
    rw [if_pos rfl, if_neg (by linarith : ¬ ((0:ℚ) < q 252 * -(risk_free_rate/252))),
      if_pos hneg]
  · have htr : s.trend
        = trendString (lastMA 50 ((constBars n c).map (fun b => b.close)))
            (lastMA 200 ((constBars n c).map (fun b => b.close))) := by
      rw [hs]; rfl
    rw [htr, hcl, lastMA_replicate 50 n c (by norm_num) (by omega),
      lastMA_replicate 200 n c (by norm_num) (by omega)]
    simp [trendString, lt_irrefl]

def volatilityView : StatsOutcome → Option (Option ℚ) := fun o =>
  match o with
  | .ok s => some s.volatility
  | _ => none

def sharpeView : StatsOutcome → Option FloatVal := fun o =>
  match o with
  | .ok s => some s.sharpe_ratio
  | _ => none

/-- C2 counterexample: on 252 identical-close bars the code does NOT report
an undefined volatility or an undefined Sharpe ratio.  The sample standard
deviation of the 251 zero returns is 0 (a defined number, not NaN), so the
annualized volatility is reported as 0 — exactly the silent zero the claim
rules out — and the Sharpe ratio is the negative infinity produced by
dividing the negative mean excess return by that zero, not a null. -/
theorem c2_counterexample :
    volatilityView (computeStats (constBars 252 100) noInfo 0 id) = some (some 0)
    ∧ sharpeView (computeStats (constBars 252 100) noInfo 0 id)
        = some FloatVal.ninf := by
  have hok : isOkB (computeStats (constBars 252 100) noInfo 0 id) = true :=
    computeStats_const_isOk 252 100 noInfo 0 id (by norm_num) (by norm_num)
  have heq := ok_of_isOkB hok defaultStats
  obtain ⟨hv, hsh, _, _⟩ := computeStats_const_fields 252 100 noInfo 0 id
    (by norm_num) (by norm_num) rfl (by show (0:ℚ) < 252; norm_num) _ heq
  rw [heq]
  simp only [volatilityView, sharpeView]
  exact ⟨by rw [hv], by rw [hsh]⟩

/-- C2 amended: for a 252-bar constant-price series the volatility is
defined and equals 0 (the zero standard deviation is annualized to 0, not
reported as null), the Sharpe ratio is negative infinity under float
semantics (negative mean excess return divided by a zero standard
deviation), every drawdown entry is 0, and the trend is Neutral. -/
theorem c2_const_series_amended (c : ℚ) (info : StockInfo) (y : ℤ) (q : ℚ → ℚ)
    (s : StockStats) (hc : 0 < c) (hq0 : q 0 = 0) (hq252 : 0 < q 252)
    (hok : computeStats (constBars 252 c) info y q = .ok s) :
    s.volatility = some 0
    ∧ s.sharpe_ratio = FloatVal.ninf
    ∧ (∀ d ∈ drawdownList ((constBars 252 c).map (fun b => b.close)), d = 0)
    ∧ s.trend = "Neutral" := by
  obtain ⟨hv, hsh, htr, hdd⟩ := computeStats_const_fields 252 c info y q
    (by norm_num) (ne_of_gt hc) hq0 hq252 s hok
  refine ⟨hv, hsh, ?_, htr⟩
  intro d hd
  rw [hdd] at hd
  exact List.eq_of_mem_replicate hd

/-- Witness for the amended C2 at c = 100 with the identity square root
stand-in (which fixes 0 and is positive at 252, all that the theorem
uses). -/
theorem c2_const_series_amended_witness :
    ((0:ℚ) < 100 ∧ id (0:ℚ) = 0 ∧ (0:ℚ) < id 252
      ∧ computeStats (constBars 252 100) noInfo 0 id
          = .ok (okStats (computeStats (constBars 252 100) noInfo 0 id) defaultStats))
    ∧ (okStats (computeStats (constBars 252 100) noInfo 0 id) defaultStats).volatility
        = some 0
    ∧ (okStats (computeStats (constBars 252 100) noInfo 0 id) defaultStats).sharpe_ratio
        = FloatVal.ninf := by
  have hok : isOkB (computeStats (constBars 252 100) noInfo 0 id) = true :=
    computeStats_const_isOk 252 100 noInfo 0 id (by norm_num) (by norm_num)
  have heq := ok_of_isOkB hok defaultStats
  have h := c2_const_series_amended 100 noInfo 0 id _ (by norm_num) rfl
    (by show (0:ℚ) < 252; norm_num) heq
  exact ⟨⟨by norm_num, rfl, by show (0:ℚ) < 252; norm_num, heq⟩, h.1, h.2.1⟩
